import Mathlib

/-!
A shallow embedding of `src/platform/SuperRareService.ts` from the
nft-openAction-kit repository, together with the data model it uses
(`NFTExtraction`, `UIData` from the package's type definitions).

Conventions of the embedding:
* TypeScript `bigint` values that originate from unsigned on-chain data
  (uint256 prices, token ids, chain ids) are modelled as `Nat`.
* Values decoded from EVM calls (`any` in the source) are modelled by the
  inductive `EvmValue` (an address string or an unsigned integer).
* Asynchronous chain reads and the HTTP fetch are modelled by explicit
  oracle parameters (`SaleOracle`, `ChainEnv`): each oracle maps the call's
  arguments to the value the external collaborator would return, with
  `Except` capturing a throwing read and `Option` capturing `undefined`.
* A thrown `Error` is modelled as `Except.error` carrying the message; an
  early `return;` of `undefined` is modelled as `none`.
* The JavaScript regex search
  `sourceUrl.match(/https:\/\/superrare\.com\/(0x[a-fA-F0-9]{40})/)` is
  modelled by `searchFrom`, a scanner over the character list that returns
  the first capture group of the first match, exactly as `String.match`
  does for a non-global regex.
* The source repeats the sell-address resolution snippet verbatim inside
  `getUIData`, `getPrice` and `getArgs`; here it is the single definition
  `resolveSellAddress`, and each of the three functions is defined as its
  core applied to `resolveSellAddress sourceUrl`.
-/

namespace SuperRareService

/-- A value decoded from an EVM call: the source types these `any`. -/
inductive EvmValue where
  | addr (a : String)
  | uint (n : Nat)
deriving DecidableEq, Repr

/-- `export const SUPER_RARE_ADDRESS` (SuperRareService.ts line 10). -/
def SUPER_RARE_ADDRESS : String := "0xb932a70a57673d89f4acffbe830e8ed7f75fb9e0"

/-- `export const SUPER_RARE_MINTER_ADDRESS` (SuperRareService.ts lines 11-12). -/
def SUPER_RARE_MINTER_ADDRESS : String := "0x6D7c44773C52D396F43c2D511B81aa168E9a7a42"

/-- Modelled from the spec: the `ZERO_ADDRESS` constant imported from
`src/config/constants.ts` (a file not present in the repository snapshot);
the spec calls it "the zero address (native currency)". -/
def ZERO_ADDRESS : String := "0x0000000000000000000000000000000000000000"

/-- The private `mintSignature` field of the service class. -/
def mintSignature : String :=
  "function buy(address _originContract, uint256 _tokenId, address _currencyAddress, uint256 _amount) external payable"

/-- The character class `[a-fA-F0-9]` of the source's regex. -/
def hexDigit (c : Char) : Bool :=
  (decide ('0' ≤ c) && decide (c ≤ '9')) ||
  (decide ('a' ≤ c) && decide (c ≤ 'f')) ||
  (decide ('A' ≤ c) && decide (c ≤ 'F'))

/-- The literal part `https://superrare.com/` of the source's regex. -/
def siteHead : List Char := "https://superrare.com/".data

/-- The literal part of the regex up to and including the `0x` that starts
the capture group. -/
def headPat : List Char := "https://superrare.com/0x".data

/-- `stripPat p l = some r` iff `l = p ++ r`: matching a literal pattern at
the start of the input. -/
def stripPat : List Char → List Char → Option (List Char)
  | [], l => some l
  | _ :: _, [] => none
  | p :: ps, c :: cs => if p = c then stripPat ps cs else none

/-- Matching the whole regex at the current position: the literal head,
then exactly 40 hex digits; the returned list is capture group 1,
`0x` plus the 40 digits. -/
def matchHere (l : List Char) : Option (List Char) :=
  match stripPat headPat l with
  | none => none
  | some rest =>
    let hexs := rest.take 40
    if hexs.length = 40 ∧ hexs.all hexDigit = true then
      some ('0' :: 'x' :: hexs)
    else none

/-- The regex search: try the pattern at every position, left to right,
and return the first capture, as `String.match` does. -/
def searchFrom : List Char → Option (List Char)
  | [] => none
  | c :: t =>
    match matchHere (c :: t) with
    | some r => some r
    | none => searchFrom t

/-- `sourceUrl.match(/https:\/\/superrare\.com\/(0x[a-fA-F0-9]{40})/)`,
reduced to its capture group 1 (`contractMatch[1]` is all the source uses). -/
def superRareUrlMatch (s : String) : Option String :=
  (searchFrom s.data).map String.mk

/-- The sell-address resolution snippet that the source repeats inside
`getUIData`, `getPrice` and `getArgs`: start from `SUPER_RARE_ADDRESS`;
when `sourceUrl` is truthy (non-empty) and the regex matches, the capture
overrides the default. -/
def resolveSellAddress (sourceUrl : String) : String :=
  if sourceUrl = "" then SUPER_RARE_ADDRESS
  else
    match superRareUrlMatch sourceUrl with
    | some a => a
    | none => SUPER_RARE_ADDRESS

/-- The same resolution for `getPrice`, whose `sourceUrl?` parameter is
optional: `undefined` (like `""`) is falsy, so the default is kept. -/
def resolveSellAddressOpt : Option String → String
  | none => SUPER_RARE_ADDRESS
  | some s => resolveSellAddress s

/-- The record built by `getSalePrices`
(`{ price: bigint; token: string; seller: string }`); `token` and `seller`
keep the raw decoded values, as the source assigns them untyped. -/
structure SalePrice where
  price : Nat
  token : EvmValue
  seller : EvmValue
deriving DecidableEq, Repr

/-- One hex digit's numeric value (0 for other characters). -/
def hexVal (c : Char) : Nat :=
  if decide ('0' ≤ c) && decide (c ≤ '9') then c.toNat - '0'.toNat
  else if decide ('a' ≤ c) && decide (c ≤ 'f') then c.toNat - 'a'.toNat + 10
  else if decide ('A' ≤ c) && decide (c ≤ 'F') then c.toNat - 'A'.toNat + 10
  else 0

/-- JavaScript `BigInt(x)` applied to a decoded EVM value: the identity on
an unsigned integer; a `0x…` address string parses as its hex value. -/
def toBigInt : EvmValue → Nat
  | .uint n => n
  | .addr s => (s.data.drop 2).foldl (fun acc c => 16 * acc + hexVal c) 0

/-- The pure tail of `getSalePrices` (SuperRareService.ts lines 174-199):
the raw value decoded from `tokenSalePrices` is `undefined`/absent, or an
array; anything but a length-3 array yields `undefined`, otherwise the
record is built from indices 2, 2 and 0 as in the source. -/
def getSalePrices (raw : Option (List EvmValue)) : Option SalePrice :=
  match raw with
  | none => none
  | some [a, _, c] => some { price := toBigInt c, token := c, seller := a }
  | some _ => none

/-- `isSaleValid` (SuperRareService.ts lines 201-212). -/
def isSaleValid (salePrice : Option SalePrice) : Bool :=
  match salePrice with
  | none => false
  | some r => if r.price = 0 then false else true

/-- The private `getFees` (SuperRareService.ts lines 214-218): 3%. -/
def getFees : Nat := 3

/-- The marketplace read `tokenSalePrices([contractAddress, nftId,
ZERO_ADDRESS])` as an oracle: contract address and token id to the raw
decoded value (`none` = `undefined`). -/
abbrev SaleOracle := String → Nat → Option (List EvmValue)

/-- `getMinterAddress` (SuperRareService.ts lines 33-38). -/
def getMinterAddress (contract : String) (tokenId : Nat) : Option String :=
  some SUPER_RARE_MINTER_ADDRESS

/-- `NFTExtraction` from the package's types: the `chain` object is
reduced to its id and the circular `service` reference is omitted; the
token id is a string, as in the source. -/
structure NFTExtraction where
  chainId : Nat
  contractAddress : String
  nftId : String
deriving DecidableEq, Repr

/-- JavaScript `BigInt(s)` on a decimal string (the source applies it to
`nftDetails.nftId`); malformed input, on which JavaScript throws, is not
exercised by any claim and is collapsed to 0. -/
def bigIntOfStr (s : String) : Nat := (s.toNat?).getD 0

/-- `getMintSignature` (SuperRareService.ts lines 40-51). -/
def getMintSignature (sales : SaleOracle) (nftDetails : NFTExtraction) : Option String :=
  let salePrice := getSalePrices (sales nftDetails.contractAddress (bigIntOfStr nftDetails.nftId))
  if isSaleValid salePrice then some mintSignature else none

/-- The body of `getPrice` after the sell-address resolution
(SuperRareService.ts lines 143-150): look the sale up at the resolved
address, refuse an invalid sale, otherwise
`((salePrice.price * getFees()) / 100n + salePrice.price) * unit`. -/
def getPriceCore (sales : SaleOracle) (sellAddress : String) (nftId : Nat) (unit : Nat) :
    Option Nat :=
  let salePrice := getSalePrices (sales sellAddress nftId)
  if isSaleValid salePrice then
    salePrice.map (fun r => (r.price * getFees / 100 + r.price) * unit)
  else none

/-- `getPrice` (SuperRareService.ts lines 124-150); `contractAddress`,
`signature` and `userAddress` are accepted and ignored, as in the source. -/
def getPrice (sales : SaleOracle) (contractAddress : String) (nftId : Nat)
    (signature userAddress : String) (unit : Nat) (sourceUrl : Option String) :
    Option Nat :=
  getPriceCore sales (resolveSellAddressOpt sourceUrl) nftId unit

/-- `getArgs` (SuperRareService.ts lines 152-172): resolve the sell address
from `sourceUrl` and return `[sellAddress, tokenId, ZERO_ADDRESS, price]`. -/
def getArgs (contractAddress : String) (tokenId : Nat) (senderAddress signature : String)
    (price : Nat) (quantity : Nat) (profileOwnerAddress : String) (sourceUrl : String) :
    List EvmValue :=
  [.addr (resolveSellAddress sourceUrl), .uint tokenId, .addr ZERO_ADDRESS, .uint price]

/-- The fetched token metadata JSON, restricted to the two fields the
source inspects; `none` models an absent field. -/
structure TokenDoc where
  name : Option String
  image : Option String
deriving DecidableEq, Repr

/-- JavaScript truthiness of a possibly-absent string field:
`undefined` and `""` are falsy. -/
def truthy : Option String → Bool
  | none => false
  | some s => if s = "" then false else true

/-- The `fetch` response, restricted to what the source uses: the `ok`
flag and the parsed JSON body. -/
structure FetchResponse where
  ok : Bool
  json : TokenDoc
deriving DecidableEq, Repr

/-- The external collaborators `getUIData` calls, as oracles:
`tokenCreator` is the SuperRareV2 read (its failure propagates),
`ownerRead` the Ownable `owner()` read (its failure is caught),
`tokenURI` the ERC721 read, and `fetchDoc` the HTTP fetch of the token
metadata (`Except.error` models a thrown network error). -/
structure ChainEnv where
  tokenCreator : String → Nat → Except String String
  ownerRead : String → Except String String
  tokenURI : String → Nat → Except String String
  fetchDoc : String → Except String FetchResponse

/-- The `platformName`/`platformLogoUrl` fields the constructor copies
out of `ServiceConfig`. -/
structure PlatformConfig where
  platformName : String
  platformLogoUrl : String
deriving DecidableEq, Repr

/-- The object literal `getUIData` returns: `UIData` from the package's
types plus the `tokenStandard` and `dstChainId` fields the source adds. -/
structure UIData where
  platformName : String
  platformLogoUrl : String
  nftName : String
  nftUri : String
  tokenStandard : String
  nftCreatorAddress : Option String
  dstChainId : Nat
deriving DecidableEq, Repr

/-- JavaScript `toLowerCase()` as used on the two address strings:
a per-character lowercase map. -/
def lowerAscii (s : String) : String := String.mk (s.data.map Char.toLower)

/-- The spread `...(owner ? { nftCreatorAddress: owner } : {})`: the field
is present exactly when `owner` is truthy. -/
def creatorField : Option String → Option String
  | none => none
  | some s => if s = "" then none else some s

/-- The `owner` computation of `getUIData` (SuperRareService.ts lines
75-94): on the default SuperRare contract (case-insensitive comparison)
read `tokenCreator`, letting a failure propagate; on any other contract
try `owner()` and catch a failure, leaving `owner` undefined. -/
def ownerStep (env : ChainEnv) (sellAddress : String) (tokenId : Nat) :
    Except String (Option String) :=
  if lowerAscii sellAddress = lowerAscii SUPER_RARE_ADDRESS then
    match env.tokenCreator sellAddress tokenId with
    | .ok o => .ok (some o)
    | .error e => .error e
  else
    match env.ownerRead sellAddress with
    | .ok o => .ok (some o)
    | .error _ => .ok none

/-- The body of `getUIData` after the sell-address resolution
(SuperRareService.ts lines 69-122): owner lookup, `tokenURI` read, fetch,
then the three guarded throws and the returned object literal. -/
def getUIDataCore (env : ChainEnv) (cfg : PlatformConfig) (sellAddress : String)
    (tokenId : Nat) (dstChainId : Nat) : Except String UIData :=
  match ownerStep env sellAddress tokenId with
  | .error e => .error e
  | .ok owner =>
    match env.tokenURI sellAddress tokenId with
    | .error e => .error e
    | .ok uri =>
      match env.fetchDoc uri with
      | .error e => .error e
      | .ok tokenData =>
        if tokenData.ok = false then .error "Token data not found"
        else if truthy tokenData.json.name = false then .error "Collection name not found"
        else if truthy tokenData.json.image = false then .error "Preview asset url not found"
        else .ok {
          platformName := cfg.platformName
          platformLogoUrl := cfg.platformLogoUrl
          nftName := tokenData.json.name.getD ""
          nftUri := tokenData.json.image.getD ""
          tokenStandard := "erc721"
          nftCreatorAddress := creatorField owner
          dstChainId := dstChainId }

/-- `getUIData` (SuperRareService.ts lines 53-122); the `signature` and
`contract` parameters are accepted and ignored, as in the source. -/
def getUIData (env : ChainEnv) (cfg : PlatformConfig) (signature contract : String)
    (tokenId dstChainId : Nat) (sourceUrl : String) : Except String UIData :=
  getUIDataCore env cfg (resolveSellAddress sourceUrl) tokenId dstChainId

/-! ## Characterization of the URL scanner -/

/-- `stripPat` succeeds exactly on lists that start with the pattern, and
returns the remainder. -/
theorem stripPat_eq_some : ∀ (p l r : List Char), stripPat p l = some r ↔ l = p ++ r
  | [], l, r => by simp [stripPat]
  | q :: ps, [], r => by simp [stripPat]
  | q :: ps, c :: cs, r => by
    by_cases h : q = c
    · subst h
      simp [stripPat, stripPat_eq_some ps cs r]
    · simp only [stripPat, if_neg h, List.cons_append]
      constructor
      · intro hx
        cases hx
      · intro hx
        injection hx with h1 _
        exact absurd h1.symm h

/-- The full literal head is the site part followed by `0x`. -/
theorem headPat_eq : headPat = siteHead ++ ['0', 'x'] := by decide

/-- A successful match at the current position decomposes the input as the
literal head, the captured address, and a remainder. -/
theorem matchHere_eq_some {l r : List Char} (h : matchHere l = some r) :
    ∃ hex post, r = '0' :: 'x' :: hex ∧ hex.length = 40 ∧ hex.all hexDigit = true ∧
      l = siteHead ++ r ++ post := by
  unfold matchHere at h
  cases hs : stripPat headPat l with
  | none => rw [hs] at h; cases h
  | some rest =>
    rw [hs] at h
    simp only at h
    split at h
    case isFalse => cases h
    case isTrue hc =>
      injection h with h
      refine ⟨rest.take 40, rest.drop 40, h.symm, hc.1, hc.2, ?_⟩
      have hl : l = headPat ++ rest := (stripPat_eq_some headPat l rest).mp hs
      rw [hl, headPat_eq, ← h]
      have : rest = rest.take 40 ++ rest.drop 40 := (List.take_append_drop 40 rest).symm
      conv_lhs => rw [this]
      simp

/-- A position that starts with the head followed by 40 hex digits is a
match, capturing `0x` plus those digits. -/
theorem matchHere_of_embed {hex post : List Char} (hlen : hex.length = 40)
    (hall : hex.all hexDigit = true) :
    matchHere (siteHead ++ ('0' :: 'x' :: (hex ++ post))) = some ('0' :: 'x' :: hex) := by
  have hl : siteHead ++ ('0' :: 'x' :: (hex ++ post)) = headPat ++ (hex ++ post) := by
    rw [headPat_eq]
    simp
  rw [hl]
  unfold matchHere
  rw [(stripPat_eq_some headPat (headPat ++ (hex ++ post)) (hex ++ post)).mpr rfl]
  have ht : (hex ++ post).take 40 = hex := by
    rw [← hlen]
    exact List.take_left hex post
  simp [ht, hlen, hall]

/-- A match anywhere is found by the left-to-right search. -/
theorem searchFrom_of_matchHere {l r : List Char} (h : matchHere l = some r) :
    searchFrom l = some r := by
  match l with
  | [] =>
    have hnone : matchHere ([] : List Char) = none := by decide
    rw [hnone] at h
    cases h
  | c :: t => simp [searchFrom, h]

/-- Soundness of the search: a returned capture really is `0x` plus 40 hex
digits, preceded in the input by the site's literal head. -/
theorem searchFrom_eq_some : ∀ {l r : List Char}, searchFrom l = some r →
    ∃ pre hex post, r = '0' :: 'x' :: hex ∧ hex.length = 40 ∧ hex.all hexDigit = true ∧
      l = pre ++ (siteHead ++ (r ++ post))
  | [], r, h => by cases h
  | c :: t, r, h => by
    rw [searchFrom] at h
    cases hm : matchHere (c :: t) with
    | some r0 =>
      rw [hm] at h
      injection h with h
      subst h
      obtain ⟨hex, post, h1, h2, h3, h4⟩ := matchHere_eq_some hm
      exact ⟨[], hex, post, h1, h2, h3, by simpa using h4⟩
    | none =>
      rw [hm] at h
      obtain ⟨pre, hex, post, h1, h2, h3, h4⟩ := searchFrom_eq_some h
      exact ⟨c :: pre, hex, post, h1, h2, h3, by simp [h4]⟩

/-- Completeness of the search: an input embedding the head followed by 40
hex digits yields a capture. -/
theorem searchFrom_of_embed : ∀ (pre : List Char) {hex post : List Char},
    hex.length = 40 → hex.all hexDigit = true →
    ∃ r, searchFrom (pre ++ (siteHead ++ ('0' :: 'x' :: (hex ++ post)))) = some r
  | [], hex, post, hlen, hall => by
    refine ⟨'0' :: 'x' :: hex, ?_⟩
    rw [List.nil_append]
    exact searchFrom_of_matchHere (matchHere_of_embed hlen hall)
  | c :: pre, hex, post, hlen, hall => by
    rw [List.cons_append]
    cases hm : matchHere (c :: (pre ++ (siteHead ++ ('0' :: 'x' :: (hex ++ post))))) with
    | some r0 => exact ⟨r0, by rw [searchFrom, hm]⟩
    | none =>
      obtain ⟨r, hr⟩ := searchFrom_of_embed pre hlen hall
      refine ⟨r, ?_⟩
      rw [searchFrom, hm]
      exact hr

/-- The source URL contains a segment matching the regex
`https://superrare.com/(0x[a-fA-F0-9]{40})`. -/
def hasEmbeddedAddr (l : List Char) : Prop :=
  ∃ pre hex post, hex.length = 40 ∧ hex.all hexDigit = true ∧
    l = pre ++ (siteHead ++ ('0' :: 'x' :: (hex ++ post)))

/-- The empty URL matches nothing. -/
theorem superRareUrlMatch_empty : superRareUrlMatch "" = none := by decide

/-! ## Shared helper lemmas -/

/-- A sale record with positive price passes `isSaleValid`. -/
theorem isSaleValid_of_pos {r : SalePrice} (h : 0 < r.price) : isSaleValid (some r) = true := by
  have : r.price ≠ 0 := Nat.pos_iff_ne_zero.mp h
  simp [isSaleValid, this]

/-- An absent record or a zero price fails `isSaleValid`. -/
theorem isSaleValid_eq_false {sp : Option SalePrice}
    (h : sp = none ∨ ∃ r, sp = some r ∧ r.price = 0) : isSaleValid sp = false := by
  rcases h with h | ⟨r, hr, hp⟩
  · rw [h]; rfl
  · rw [hr]; simp [isSaleValid, hp]

/-- A truthy optional string defaults to a non-empty string. -/
theorem getD_ne_empty_of_truthy {o : Option String} (h : truthy o = true) :
    o.getD "" ≠ "" := by
  cases o with
  | none => simp [truthy] at h
  | some s =>
    by_cases hs : s = ""
    · simp [truthy, hs] at h
    · simpa using hs

/-! ## The claims -/

/-- C2: `isSaleValid` returns true iff the sale record is present and its
price is strictly greater than zero; an absent record or a zero price makes
it return false. -/
theorem c2_isSaleValid_iff (salePrice : Option SalePrice) :
    isSaleValid salePrice = true ↔ ∃ r : SalePrice, salePrice = some r ∧ 0 < r.price := by
  cases salePrice with
  | none => simp [isSaleValid]
  | some r =>
    constructor
    · intro h
      refine ⟨r, rfl, ?_⟩
      by_cases hp : r.price = 0
      · simp [isSaleValid, hp] at h
      · exact Nat.pos_of_ne_zero hp
    · rintro ⟨s, hs, hp⟩
      injection hs with hs
      subst hs
      exact isSaleValid_of_pos hp

/-- C1: for a valid sale with base price `P`, `getPrice` computes
`(P * F / 100 + P) * unit` with `F = getFees = 3` and truncating `Nat`
division: at `unit = 1` this is `P + P * 3 / 100`, and at any `unit = U`
it is `U * (P + P * 3 / 100)` — the fee is added to the base before the
multiplication by the unit count. -/
theorem c1_getPrice_fee (sales : SaleOracle) (contractAddress : String) (nftId : Nat)
    (signature userAddress : String) (unit : Nat) (sourceUrl : Option String) (r : SalePrice)
    (hrec : getSalePrices (sales (resolveSellAddressOpt sourceUrl) nftId) = some r)
    (hpos : 0 < r.price) :
    getPrice sales contractAddress nftId signature userAddress unit sourceUrl
        = some ((r.price * getFees / 100 + r.price) * unit) ∧
    getPrice sales contractAddress nftId signature userAddress 1 sourceUrl
        = some (r.price + r.price * getFees / 100) ∧
    getPrice sales contractAddress nftId signature userAddress unit sourceUrl
        = some (unit * (r.price + r.price * getFees / 100)) := by
  refine ⟨?_, ?_, ?_⟩
  · simp [getPrice, getPriceCore, hrec, isSaleValid_of_pos hpos]
  · simp [getPrice, getPriceCore, hrec, isSaleValid_of_pos hpos, getFees]
    omega
  · simp [getPrice, getPriceCore, hrec, isSaleValid_of_pos hpos]
    ring

/-- A concrete oracle holding one listing at price 100 wei. -/
def salesHundred : SaleOracle := fun _ _ =>
  some [EvmValue.addr "0x00000000000000000000000000000000000000aa",
        EvmValue.addr ZERO_ADDRESS, EvmValue.uint 100]

/-- Witness for C1 at base price 100: one unit costs 103, two units 206. -/
theorem c1_getPrice_fee_witness :
    getPrice salesHundred "0xc" 1 "sig" "0xbuyer" 2 none = some 206 ∧
    getPrice salesHundred "0xc" 1 "sig" "0xbuyer" 1 none = some 103 := by
  have h := c1_getPrice_fee salesHundred "0xc" 1 "sig" "0xbuyer" 2 none
    { price := 100, token := EvmValue.uint 100,
      seller := EvmValue.addr "0x00000000000000000000000000000000000000aa" }
    rfl (by decide)
  exact ⟨h.1, h.2.1⟩

/-- C3: when the on-chain sale record is absent or carries price 0,
`getMintSignature` returns no signature and `getPrice` returns no price. -/
theorem c3_invalid_sale_absent (sales : SaleOracle) (nftDetails : NFTExtraction)
    (contractAddress : String) (nftId : Nat) (signature userAddress : String)
    (unit : Nat) (sourceUrl : Option String)
    (h1 : getSalePrices (sales nftDetails.contractAddress (bigIntOfStr nftDetails.nftId)) = none ∨
      ∃ r, getSalePrices (sales nftDetails.contractAddress (bigIntOfStr nftDetails.nftId))
          = some r ∧ r.price = 0)
    (h2 : getSalePrices (sales (resolveSellAddressOpt sourceUrl) nftId) = none ∨
      ∃ r, getSalePrices (sales (resolveSellAddressOpt sourceUrl) nftId) = some r ∧ r.price = 0) :
    getMintSignature sales nftDetails = none ∧
    getPrice sales contractAddress nftId signature userAddress unit sourceUrl = none := by
  constructor
  · simp [getMintSignature, isSaleValid_eq_false h1]
  · simp [getPrice, getPriceCore, isSaleValid_eq_false h2]

/-- A concrete oracle with no listing at all. -/
def salesEmpty : SaleOracle := fun _ _ => none

/-- Witness for C3 on the empty oracle. -/
theorem c3_invalid_sale_absent_witness :
    getMintSignature salesEmpty { chainId := 1, contractAddress := "0xc", nftId := "5" } = none ∧
    getPrice salesEmpty "0xc" 5 "sig" "0xbuyer" 1 none = none :=
  c3_invalid_sale_absent salesEmpty { chainId := 1, contractAddress := "0xc", nftId := "5" }
    "0xc" 5 "sig" "0xbuyer" 1 none (Or.inl rfl) (Or.inl rfl)

/-- C9: `getMinterAddress` always returns the fixed
`SUPER_RARE_MINTER_ADDRESS` and is never absent, for every contract and
token id. -/
theorem c9_getMinterAddress_constant (contract : String) (tokenId : Nat) :
    getMinterAddress contract tokenId = some SUPER_RARE_MINTER_ADDRESS ∧
    (getMinterAddress contract tokenId).isSome = true :=
  ⟨rfl, rfl⟩

/-- C10: `getArgs` always returns exactly the four positional arguments
`[sellAddress, tokenId, ZERO_ADDRESS, price]`: the currency slot is the
zero address and the price is the caller's value unchanged. -/
theorem c10_getArgs_shape (contractAddress : String) (tokenId : Nat)
    (senderAddress signature : String) (price quantity : Nat)
    (profileOwnerAddress sourceUrl : String) :
    getArgs contractAddress tokenId senderAddress signature price quantity
        profileOwnerAddress sourceUrl
      = [EvmValue.addr (resolveSellAddress sourceUrl), EvmValue.uint tokenId,
         EvmValue.addr ZERO_ADDRESS, EvmValue.uint price] ∧
    (getArgs contractAddress tokenId senderAddress signature price quantity
        profileOwnerAddress sourceUrl).length = 4 ∧
    (getArgs contractAddress tokenId senderAddress signature price quantity
        profileOwnerAddress sourceUrl)[2]? = some (EvmValue.addr ZERO_ADDRESS) ∧
    (getArgs contractAddress tokenId senderAddress signature price quantity
        profileOwnerAddress sourceUrl)[3]? = some (EvmValue.uint price) :=
  ⟨rfl, rfl, rfl, rfl⟩

/-- Modelled from the spec: the SuperRare entry of the platform registry
and the Action Assembler (their files are not in the repository snapshot).
Per the spec, the URL extractor yields the NFT identity for the matched
URL, the platform's resale-contract resolution pattern makes that identity's
selling contract the address embedded in the URL when one is present and
the platform default otherwise, and the Assembler passes
`extraction.contractAddress`, `BigInt(extraction.nftId)` and the same
source URL on to `getArgs`. -/
def specExtraction (chainId : Nat) (sourceUrl nftId : String) : NFTExtraction :=
  { chainId := chainId, contractAddress := resolveSellAddress sourceUrl, nftId := nftId }

/-- C5: the contract address and token id placed into the argument list by
`getArgs` are exactly those of the `NFTExtraction` that began the
resolution. -/
theorem c5_getArgs_roundtrip (chainId : Nat)
    (sourceUrl nftId senderAddress signature profileOwnerAddress : String)
    (price quantity : Nat) :
    getArgs (specExtraction chainId sourceUrl nftId).contractAddress
        (bigIntOfStr (specExtraction chainId sourceUrl nftId).nftId)
        senderAddress signature price quantity profileOwnerAddress sourceUrl
      = [EvmValue.addr (specExtraction chainId sourceUrl nftId).contractAddress,
         EvmValue.uint (bigIntOfStr (specExtraction chainId sourceUrl nftId).nftId),
         EvmValue.addr ZERO_ADDRESS, EvmValue.uint price] :=
  rfl

/-- C4: each of `getUIData`, `getPrice` and `getArgs` resolves the selling
contract through the same URL scan; the scan succeeds exactly on URLs
embedding a segment `https://superrare.com/0x<40 hex digits>`, in which
case all three use the captured embedded address, and otherwise all three
use the default `SUPER_RARE_ADDRESS`. -/
theorem c4_sellAddress_resolution (env : ChainEnv) (cfg : PlatformConfig) (sales : SaleOracle)
    (signature contract userAddress senderAddress profileOwnerAddress : String)
    (nftId tokenId dstChainId unit price quantity : Nat) (sourceUrl a : String) :
    (getUIData env cfg signature contract tokenId dstChainId sourceUrl
        = getUIDataCore env cfg (resolveSellAddress sourceUrl) tokenId dstChainId
      ∧ getPrice sales contract nftId signature userAddress unit (some sourceUrl)
        = getPriceCore sales (resolveSellAddress sourceUrl) nftId unit
      ∧ (getArgs contract tokenId senderAddress signature price quantity
          profileOwnerAddress sourceUrl).head?
        = some (EvmValue.addr (resolveSellAddress sourceUrl)))
    ∧ ((∃ r, superRareUrlMatch sourceUrl = some r) ↔ hasEmbeddedAddr sourceUrl.data)
    ∧ (superRareUrlMatch sourceUrl = some a →
        resolveSellAddress sourceUrl = a
        ∧ ∃ pre hex post, a.data = '0' :: 'x' :: hex ∧ hex.length = 40
            ∧ hex.all hexDigit = true
            ∧ sourceUrl.data = pre ++ (siteHead ++ (a.data ++ post)))
    ∧ (superRareUrlMatch sourceUrl = none →
        resolveSellAddress sourceUrl = SUPER_RARE_ADDRESS) := by
  refine ⟨⟨rfl, rfl, rfl⟩, ⟨?_, ?_⟩, ?_, ?_⟩
  · rintro ⟨r, hr⟩
    unfold superRareUrlMatch at hr
    obtain ⟨l, hl, hml⟩ := Option.map_eq_some'.mp hr
    obtain ⟨pre, hex, post, h1, h2, h3, h4⟩ := searchFrom_eq_some hl
    refine ⟨pre, hex, post, h2, h3, ?_⟩
    rw [h4, h1]
    simp
  · rintro ⟨pre, hex, post, h2, h3, h4⟩
    obtain ⟨r, hr⟩ := searchFrom_of_embed pre h2 h3
    refine ⟨String.mk r, ?_⟩
    unfold superRareUrlMatch
    rw [h4, hr]
    rfl
  · intro h
    have hne : sourceUrl ≠ "" := by
      intro he
      rw [he, superRareUrlMatch_empty] at h
      cases h
    constructor
    · unfold resolveSellAddress
      rw [if_neg hne, h]
    · unfold superRareUrlMatch at h
      obtain ⟨l, hl, hml⟩ := Option.map_eq_some'.mp h
      have hdat : a.data = l := by rw [← hml]
      obtain ⟨pre, hex, post, h1, h2, h3, h4⟩ := searchFrom_eq_some hl
      exact ⟨pre, hex, post, by rw [hdat, h1], h2, h3, by rw [hdat, h4]⟩
  · intro h
    unfold resolveSellAddress
    by_cases he : sourceUrl = ""
    · rw [if_pos he]
    · rw [if_neg he, h]

/-- C6: `getUIData` fails with an error whenever the metadata fetch fails
(a thrown network error or a response that is not `ok`) or the fetched
token JSON lacks a truthy `name` or a truthy `image`; in particular a
document with a name but no image is fatal. -/
theorem c6_getUIData_metadata_fatal (env : ChainEnv) (cfg : PlatformConfig)
    (signature contract : String) (tokenId dstChainId : Nat) (sourceUrl uri : String)
    (hu : env.tokenURI (resolveSellAddress sourceUrl) tokenId = .ok uri)
    (hbad : (∃ e, env.fetchDoc uri = .error e) ∨
      ∃ resp, env.fetchDoc uri = .ok resp ∧
        (resp.ok = false ∨ truthy resp.json.name = false ∨ truthy resp.json.image = false)) :
    ∃ e, getUIData env cfg signature contract tokenId dstChainId sourceUrl = .error e := by
  unfold getUIData getUIDataCore
  cases ho : ownerStep env (resolveSellAddress sourceUrl) tokenId with
  | error e => exact ⟨e, rfl⟩
  | ok owner =>
    rcases hbad with ⟨e, hf⟩ | ⟨resp, hf, hcond⟩
    · exact ⟨e, by simp [hu, hf]⟩
    · rcases hcond with hok | hname | himg
      · exact ⟨"Token data not found", by simp [hu, hf, hok]⟩
      · by_cases hok : resp.ok = false
        · exact ⟨"Token data not found", by simp [hu, hf, hok]⟩
        · exact ⟨"Collection name not found", by simp [hu, hf, hok, hname]⟩
      · by_cases hok : resp.ok = false
        · exact ⟨"Token data not found", by simp [hu, hf, hok]⟩
        · by_cases hname : truthy resp.json.name = false
          · exact ⟨"Collection name not found", by simp [hu, hf, hok, hname]⟩
          · exact ⟨"Preview asset url not found", by simp [hu, hf, hok, hname, himg]⟩

/-- A chain whose token metadata document has a name but no image. -/
def envNoImage : ChainEnv :=
  { tokenCreator := fun _ _ => Except.ok "0xcreator"
    ownerRead := fun _ => Except.error "not ownable"
    tokenURI := fun _ _ => Except.ok "ipfs://token-meta"
    fetchDoc := fun _ =>
      Except.ok { ok := true, json := { name := some "Art", image := none } } }

/-- Witness for C6: name present, image missing, resolution fails. -/
theorem c6_getUIData_metadata_fatal_witness :
    ∃ e, getUIData envNoImage { platformName := "SuperRare", platformLogoUrl := "logo" }
      "sig" "0xc" 7 137 "" = Except.error e :=
  c6_getUIData_metadata_fatal envNoImage
    { platformName := "SuperRare", platformLogoUrl := "logo" } "sig" "0xc" 7 137 ""
    "ipfs://token-meta" rfl
    (Or.inr ⟨{ ok := true, json := { name := some "Art", image := none } }, rfl,
      Or.inr (Or.inr rfl)⟩)

/-- C7: whenever `getUIData` returns successfully, the returned `nftName`
and `nftUri` are non-empty. -/
theorem c7_getUIData_nonempty (env : ChainEnv) (cfg : PlatformConfig)
    (signature contract : String) (tokenId dstChainId : Nat) (sourceUrl : String)
    (u : UIData)
    (h : getUIData env cfg signature contract tokenId dstChainId sourceUrl = .ok u) :
    u.nftName ≠ "" ∧ u.nftUri ≠ "" := by
  unfold getUIData getUIDataCore at h
  split at h
  · simp at h
  · split at h
    · simp at h
    · split at h
      · simp at h
      · split at h
        · simp at h
        · split at h
          · simp at h
          · split at h
            · simp at h
            · rename_i hok hname himg
              injection h with h
              subst h
              refine ⟨getD_ne_empty_of_truthy ?_, getD_ne_empty_of_truthy ?_⟩
              · revert hname
                cases truthy _ <;> simp
              · revert himg
                cases truthy _ <;> simp

/-- A chain whose every read succeeds: the default contract's
`tokenCreator` answers, and the metadata document is complete. -/
def envComplete : ChainEnv :=
  { tokenCreator := fun _ _ => Except.ok "0xcreator"
    ownerRead := fun _ => Except.error "not ownable"
    tokenURI := fun _ _ => Except.ok "ipfs://token-meta"
    fetchDoc := fun _ =>
      Except.ok { ok := true, json := { name := some "Art", image := some "ipfs://img" } } }

/-- Witness for C7 on a successful resolution. -/
theorem c7_getUIData_nonempty_witness :
    ({ platformName := "SuperRare", platformLogoUrl := "logo", nftName := "Art",
       nftUri := "ipfs://img", tokenStandard := "erc721",
       nftCreatorAddress := some "0xcreator", dstChainId := 137 } : UIData).nftName ≠ "" ∧
    ({ platformName := "SuperRare", platformLogoUrl := "logo", nftName := "Art",
       nftUri := "ipfs://img", tokenStandard := "erc721",
       nftCreatorAddress := some "0xcreator", dstChainId := 137 } : UIData).nftUri ≠ "" :=
  c7_getUIData_nonempty envComplete
    { platformName := "SuperRare", platformLogoUrl := "logo" } "sig" "0xc" 7 137 ""
    { platformName := "SuperRare", platformLogoUrl := "logo", nftName := "Art",
      nftUri := "ipfs://img", tokenStandard := "erc721",
      nftCreatorAddress := some "0xcreator", dstChainId := 137 }
    rfl

/-- C8: on a resolved selling contract other than the default SuperRare
contract, a failing `owner()` read is caught: `getUIData` still returns
successfully and the returned `UIData` simply omits `nftCreatorAddress`. -/
theorem c8_getUIData_owner_optional (env : ChainEnv) (cfg : PlatformConfig)
    (signature contract : String) (tokenId dstChainId : Nat) (sourceUrl uri : String)
    (resp : FetchResponse)
    (haddr : lowerAscii (resolveSellAddress sourceUrl) ≠ lowerAscii SUPER_RARE_ADDRESS)
    (hown : ∃ e, env.ownerRead (resolveSellAddress sourceUrl) = .error e)
    (hu : env.tokenURI (resolveSellAddress sourceUrl) tokenId = .ok uri)
    (hf : env.fetchDoc uri = .ok resp)
    (hok : resp.ok = true)
    (hname : truthy resp.json.name = true)
    (himg : truthy resp.json.image = true) :
    getUIData env cfg signature contract tokenId dstChainId sourceUrl
      = .ok { platformName := cfg.platformName, platformLogoUrl := cfg.platformLogoUrl,
              nftName := resp.json.name.getD "", nftUri := resp.json.image.getD "",
              tokenStandard := "erc721", nftCreatorAddress := none,
              dstChainId := dstChainId } := by
  obtain ⟨e, he⟩ := hown
  have ho : ownerStep env (resolveSellAddress sourceUrl) tokenId = .ok none := by
    unfold ownerStep
    rw [if_neg haddr, he]
  unfold getUIData getUIDataCore
  simp only [ho, hu, hf]
  simp [hok, hname, himg, creatorField]

/-- A URL embedding a third-party contract address. -/
def urlThirdParty : String :=
  "https://superrare.com/0x1234567890123456789012345678901234567890/nft/9"

/-- Witness for C8: the third-party contract is not ownable, yet the
resolution succeeds with no creator address. -/
theorem c8_getUIData_owner_optional_witness :
    getUIData envComplete { platformName := "SuperRare", platformLogoUrl := "logo" }
        "sig" "0xc" 7 137 urlThirdParty
      = Except.ok
          { platformName := "SuperRare", platformLogoUrl := "logo",
            nftName := "Art", nftUri := "ipfs://img", tokenStandard := "erc721",
            nftCreatorAddress := none, dstChainId := 137 } :=
  c8_getUIData_owner_optional envComplete
    { platformName := "SuperRare", platformLogoUrl := "logo" } "sig" "0xc" 7 137
    urlThirdParty "ipfs://token-meta"
    { ok := true, json := { name := some "Art", image := some "ipfs://img" } }
    (by decide) ⟨"not ownable", rfl⟩ rfl rfl rfl rfl rfl

/-- Witness for C4: a URL with an embedded address resolves to it, one
without resolves to the default. -/
theorem c4_sellAddress_resolution_witness :
    resolveSellAddress urlThirdParty = "0x1234567890123456789012345678901234567890" ∧
    resolveSellAddress "https://superrare.com/artwork" = SUPER_RARE_ADDRESS :=
  ⟨((c4_sellAddress_resolution envComplete
      { platformName := "SuperRare", platformLogoUrl := "logo" } salesEmpty
      "s" "c" "u" "sn" "p" 0 0 0 0 0 0 urlThirdParty
      "0x1234567890123456789012345678901234567890").2.2.1 (by decide)).1,
   (c4_sellAddress_resolution envComplete
      { platformName := "SuperRare", platformLogoUrl := "logo" } salesEmpty
      "s" "c" "u" "sn" "p" 0 0 0 0 0 0 "https://superrare.com/artwork"
      "0x").2.2.2 (by decide)⟩

end SuperRareService
